import Mathlib

/-!
Verification development for the DEX price-aggregator server.

Shallow embedding, translated from the TypeScript sources, of:
- the snapshot HTTP route and `SnapshotService.generateSnapshot`
  (server/routes.ts),
- `TokenDiscoveryManager.discoverPoolsForTokens` / `addPoolToRegistry`
  (server/application/services/TokenDiscoveryManager.ts),
- the result-processing loop of `PoolScheduler.executeForChain`
  (the PoolScheduler source file).

JavaScript numbers are modelled as `ℚ` (exact floating-point rounding is out
of scope; the proved statements only involve values that are exact in both).
Timestamps (ms since epoch) are `Int`.  Fallible calls are `Option`-valued.
-/

namespace DexAgg

/-- JavaScript `String.prototype.toLowerCase` over the ASCII addresses this
system handles, modelled character-wise so that it evaluates inside the
kernel (`String.toLower` itself does not reduce there). -/
def strLower (s : String) : String := ⟨s.data.map Char.toLower⟩

/-- Token metadata as carried by the snapshot service
(shared/tokens `TokenMetadata`). -/
structure TokenMetadata where
  address : String
  symbol : String
  name : String
  decimals : Nat
  logoURI : Option String
deriving Repr, DecidableEq

/-- One leg of a domain `Pool` entity (server/domain/entities `Token`). -/
structure PoolToken where
  symbol : String
  name : String
  address : String
  decimals : Nat
deriving Repr, DecidableEq

/-- Domain `Pool` entity as built by the chain adapters: two tokens,
reserves, and a fee tier. -/
structure Pool where
  address : String
  token0 : PoolToken
  token1 : PoolToken
  reserve0 : Int
  reserve1 : Int
  feeTier : Nat
deriving Repr, DecidableEq

/-- A snapshot entry (`SnapshotEntry` in server/domain/entities):
the token plus the four derived USD figures. -/
structure SnapshotEntry where
  token : TokenMetadata
  priceUSD : ℚ
  liquidityUSD : ℚ
  volumeUSD : ℚ
  marketCapUSD : ℚ
deriving Repr, DecidableEq

/-- Decimal fragment of JavaScript `parseInt`: skip whitespace, optional
sign, then the longest digit prefix; `none` models `NaN`.  (Radix prefixes
such as `0x` are not modelled; the route only receives decimal query
strings.) -/
def jsParseIntStr (s : String) : Option Int :=
  let cs := s.data.dropWhile (fun c => c == ' ' || c == '\t' || c == '\n' || c == '\r')
  let signDigits : Bool × List Char :=
    match cs with
    | '-' :: rest => (true, rest)
    | '+' :: rest => (false, rest)
    | _ => (false, cs)
  let ds := signDigits.2.takeWhile Char.isDigit
  if ds.isEmpty then none
  else
    let n : Nat := ds.foldl (fun acc c => acc * 10 + (c.toNat - 48)) 0
    some (if signDigits.1 then -(n : Int) else (n : Int))

/-- registerRoutes (server/routes.ts): `parseInt(req.query.offset as string) || 0`.
A missing parameter, a `NaN` parse, or a parsed `0` (JS falsy) all yield 0. -/
def parseOffsetParam (q : Option String) : Int :=
  match q with
  | none => 0
  | some s =>
    match jsParseIntStr s with
    | none => 0
    | some n => if n = 0 then 0 else n

/-- registerRoutes (server/routes.ts): `parseInt(req.query.limit as string) || 25`.
A missing parameter, a `NaN` parse, or a parsed `0` (JS falsy) all yield 25. -/
def parseLimitParam (q : Option String) : Int :=
  match q with
  | none => 25
  | some s =>
    match jsParseIntStr s with
    | none => 25
    | some n => if n = 0 then 25 else n

/-- JavaScript `Array.prototype.slice(start, end)` with integer arguments:
negative indices count from the end, both are clamped to `[0, length]`. -/
def jsSlice {α : Type} (l : List α) (start stop : Int) : List α :=
  let len : Int := l.length
  let s : Int := if start < 0 then max (len + start) 0 else min start len
  let e : Int := if stop < 0 then max (len + stop) 0 else min stop len
  (l.drop s.toNat).take (e - s).toNat

/-- SnapshotService.generateSnapshot: the merged token list.  The static
list for the chain is followed by those dynamic-list tokens whose lowercase
address does not occur among the static addresses
(`dynamicMeta.filter(t => !seen.has(t.address.toLowerCase()))`). -/
def mergedTokens (staticMeta dynamicMeta : List TokenMetadata) : List TokenMetadata :=
  let seen := staticMeta.map (fun t => strLower t.address)
  staticMeta ++ dynamicMeta.filter (fun t => !(seen.contains (strLower t.address)))

/-- SnapshotService.generateSnapshot: `pools.find(p => p.token0.address
.toLowerCase() === meta.address.toLowerCase() || p.token1...)` — the first
pool in the adapter's list either of whose legs matches the token. -/
def findPoolForToken (pools : List Pool) (addrLower : String) : Option Pool :=
  pools.find? (fun p =>
    strLower p.token0.address == addrLower || strLower p.token1.address == addrLower)

/-- A value of the service's entry cache: `{ timestamp, entry }`. -/
structure CacheEntry where
  timestamp : Int
  entry : SnapshotEntry
deriving Repr, DecidableEq

/-- The cache-freshness test of generateSnapshot:
`cached && (now - cached.timestamp < 10000)`. -/
def isCacheFresh (cache : String → Option CacheEntry) (key : String) (now : Int) : Bool :=
  match cache key with
  | some c => decide (now - c.timestamp < 10000)
  | none => false

/-- generateSnapshot: assembling one `SnapshotEntry` from a price and a
liquidity figure (`volumeUSD = liquidity * 0.15`,
`marketCapUSD = price * 10_000_000`). -/
def mkSnapshotEntry (meta : TokenMetadata) (price liquidity : ℚ) : SnapshotEntry :=
  { token := meta
    priceUSD := price
    liquidityUSD := liquidity
    volumeUSD := liquidity * (15 / 100)
    marketCapUSD := price * 10000000 }

/-- generateSnapshot: `isToken0Stable` — whether the selected pool's token0
is the chain's stable token. -/
def isToken0Stable (pool : Pool) (stable : String) : Bool :=
  strLower pool.token0.address == strLower stable

/-- generateSnapshot: the target token address fed to computeSpotPrice — the
non-stable leg of the selected pool. -/
def entryTargetAddress (pool : Pool) (stable : String) : String :=
  if isToken0Stable pool stable then pool.token1.address else pool.token0.address

/-- generateSnapshot: `price = computeSpotPrice(pool, targetToken.address,
stableAddress)`, with `spot` standing for computeSpotPrice. -/
def entryPriceOf (spot : Pool → String → String → ℚ) (pool : Pool)
    (stable : String) : ℚ :=
  spot pool (entryTargetAddress pool stable) stable

/-- generateSnapshot: `liquidity = computeLiquidityUSD(pool, isToken0Stable ?
1 : price, isToken0Stable ? price : 1)`, with `liq` standing for
computeLiquidityUSD. -/
def entryLiquidityOf (spot : Pool → String → String → ℚ)
    (liq : Pool → ℚ → ℚ → ℚ) (pool : Pool) (stable : String) : ℚ :=
  liq pool (if isToken0Stable pool stable then 1 else entryPriceOf spot pool stable)
    (if isToken0Stable pool stable then entryPriceOf spot pool stable else 1)

/-- generateSnapshot, fresh-data path for one token.  `spot` and `liq` stand
for `computeSpotPrice` and `computeLiquidityUSD` from server/domain/pricing
(whose source is not provided); the embedding is parametric in them.  If no
pool in the adapter's list matches the token, the synthetic fallback
`price = 1, liquidity = 500000` is used. -/
def freshEntry (spot : Pool → String → String → ℚ) (liq : Pool → ℚ → ℚ → ℚ)
    (stable : String) (pools : List Pool) (meta : TokenMetadata) : SnapshotEntry :=
  match findPoolForToken pools (strLower meta.address) with
  | some pool =>
    mkSnapshotEntry meta (entryPriceOf spot pool stable)
      (entryLiquidityOf spot liq pool stable)
  | none => mkSnapshotEntry meta 1 500000

/-- generateSnapshot, per-token body: return the cached entry when it is
younger than 10 s, otherwise compute a fresh entry. -/
def computeEntry (spot : Pool → String → String → ℚ) (liq : Pool → ℚ → ℚ → ℚ)
    (cache : String → Option CacheEntry) (now : Int) (chainKey stable : String)
    (pools : List Pool) (meta : TokenMetadata) : SnapshotEntry :=
  let key := chainKey ++ ":" ++ strLower meta.address
  match cache key with
  | some c =>
    if now - c.timestamp < 10000 then c.entry
    else freshEntry spot liq stable pools meta
  | none => freshEntry spot liq stable pools meta

/-- SnapshotService.generateSnapshot: merge, window by
`slice(offset, offset + limit)`, then map the per-token entry computation. -/
def generateSnapshot (spot : Pool → String → String → ℚ) (liq : Pool → ℚ → ℚ → ℚ)
    (cache : String → Option CacheEntry) (now : Int) (chainKey stable : String)
    (staticMeta dynamicMeta : List TokenMetadata) (pools : List Pool)
    (offset limit : Int) : List SnapshotEntry :=
  (jsSlice (mergedTokens staticMeta dynamicMeta) offset (offset + limit)).map
    (computeEntry spot liq cache now chainKey stable pools)

/-- The snapshot route handler (server/routes.ts): parse `offset`/`limit`,
look up the adapter by lowercase chain name (404 when absent), and return
the snapshot with status 200. -/
def handleSnapshotRequest (spot : Pool → String → String → ℚ)
    (liq : Pool → ℚ → ℚ → ℚ) (cache : String → Option CacheEntry) (now : Int)
    (adapters : List String) (chain : String)
    (offsetParam limitParam : Option String) (stable : String)
    (staticMeta dynamicMeta : List TokenMetadata) (pools : List Pool) :
    Nat × List SnapshotEntry :=
  if adapters.contains (strLower chain) then
    (200, generateSnapshot spot liq cache now (strLower chain) stable staticMeta
      dynamicMeta pools (parseOffsetParam offsetParam) (parseLimitParam limitParam))
  else (404, [])

/-- A pricing route (server/domain/types `PricingRoute`): price the token
from `pool`, normalizing against `base`. -/
structure PricingRoute where
  pool : String
  base : String
deriving Repr, DecidableEq

/-- Pool metadata as stored in the registry (server/domain/types
`PoolMetadata`). -/
structure PoolMetadata where
  address : String
  dexType : String
  token0 : String
  token1 : String
  feeTier : Option Nat
  weight : Nat
deriving Repr, DecidableEq

/-- The persisted per-chain registry: pools keyed by address, pricing routes
keyed by lowercase token address.  JS objects are modelled as association
lists whose lookup returns the first matching key. -/
structure PoolRegistry where
  pools : List (String × PoolMetadata)
  pricingRoutes : List (String × List PricingRoute)
deriving Repr, DecidableEq

/-- First-occurrence lookup in an association list (JS object read). -/
def lookupKey {β : Type} : List (String × β) → String → Option β
  | [], _ => none
  | (a, v) :: rest, k => if a = k then some v else lookupKey rest k

/-- JS object write `obj[k] = v`: replace the first binding of `k`, or
append a new binding when absent. -/
def setKey {β : Type} : List (String × β) → String → β → List (String × β)
  | [], k, v => [(k, v)]
  | (a, v') :: rest, k, v =>
    if a = k then (k, v) :: rest else (a, v') :: setKey rest k v

/-- addPoolToRegistry route write: ensure `registry.pricingRoutes[k]` exists,
then `push` the route at its end. -/
def pushRoute : List (String × List PricingRoute) → String → PricingRoute →
    List (String × List PricingRoute)
  | [], k, r => [(k, [r])]
  | (a, l) :: rest, k, r =>
    if a = k then (a, l ++ [r]) :: rest else (a, l) :: pushRoute rest k r

/-- JS truthiness of the optional `fee` argument (`fee ? "v3" : "v2"`):
`undefined` and `0` are falsy. -/
def feeTruthy : Option Nat → Bool
  | some n => n != 0
  | none => false

/-- TokenDiscoveryManager.addPoolToRegistry: store the pool metadata under
its (non-lowercased) address and push the two symmetric pricing routes under
the lowercase token addresses. -/
def addPoolToRegistry (registry : PoolRegistry) (poolAddress : String)
    (token0 token1 : String) (fee : Option Nat) : PoolRegistry :=
  let dexType := if feeTruthy fee then "v3" else "v2"
  let weight : Nat := if feeTruthy fee then 2 else 1
  let meta : PoolMetadata :=
    { address := poolAddress, dexType := dexType, token0 := token0,
      token1 := token1, feeTier := fee, weight := weight }
  { pools := setKey registry.pools poolAddress meta
    pricingRoutes :=
      pushRoute (pushRoute registry.pricingRoutes (strLower token0) ⟨poolAddress, token1⟩)
        (strLower token1) ⟨poolAddress, token0⟩ }

/-- Modelled from the spec: the snapshot route-selection rule of §4.8
("pick the route with highest pool weight, break ties by lowest pool address
(lowercase)"), for comparison against the code's pool selection.  The weight
of a route is read off the registry's pool metadata. -/
def routeWeight (reg : PoolRegistry) (r : PricingRoute) : Nat :=
  match lookupKey reg.pools r.pool with
  | some m => m.weight
  | none => 0

/-- Modelled from the spec: `c` beats `best` when it has strictly higher
weight, or equal weight and a strictly lower lowercase pool address. -/
def routeBeats (reg : PoolRegistry) (c best : PricingRoute) : Bool :=
  routeWeight reg best < routeWeight reg c ||
    (routeWeight reg c == routeWeight reg best && strLower c.pool < strLower best.pool)

/-- Modelled from the spec: the pricing pool §4.8 says the snapshot service
selects for a token — the route of maximal weight, ties broken by lowest
lowercase pool address. -/
def specSelectRoute (reg : PoolRegistry) (tokenLower : String) : Option String :=
  match lookupKey reg.pricingRoutes tokenLower with
  | none => none
  | some [] => none
  | some (r :: rs) =>
    some (rs.foldl (fun best c => if routeBeats reg c best then c else best) r).pool

/-- A token as passed to discovery (server/domain/entities `Token`). -/
structure Token where
  address : String
  symbol : String
  name : String
  decimals : Nat
  chainId : Nat
deriving Repr, DecidableEq

/-- A recorded discovery attempt (TokenDiscoveryManager `DiscoveryAttempt`). -/
structure DiscoveryAttempt where
  tokenAddress : String
  chainId : Nat
  attemptedAt : Int
  poolsFound : Nat
  succeeded : Bool
deriving Repr, DecidableEq

/-- The part of an on-chain pool state that discovery consumes
(`getPoolState` result: token0/token1). -/
structure PoolState where
  token0 : String
  token1 : String
deriving Repr, DecidableEq

/-- TokenDiscoveryManager: `DISCOVERY_RETRY_WINDOW = 5 * 60 * 1000` ms. -/
def DISCOVERY_RETRY_WINDOW : Int := 5 * 60 * 1000

/-- TokenDiscoveryManager: `FEE_TIERS = [100, 500, 3000, 10000]`. -/
def FEE_TIERS : List Nat := [100, 500, 3000, 10000]

/-- TokenDiscoveryManager: `BASE_TOKENS[chainId] || []`. -/
def BASE_TOKENS (chainId : Nat) : List String :=
  if chainId = 1 then
    ["0xa0b86991c6218b36c1d19d4a2e9eb0ce3606eb48",
     "0xdac17f958d2ee523a2206206994597c13d831ec7",
     "0x6b175474e89094c44da98b954eedeac495271d0f",
     "0xc02aaa39b223fe8d0a0e5c4f27ead9083c756cc2"]
  else if chainId = 137 then
    ["0x2791bca1f2de4661ed88a30c99a7a9449aa84174",
     "0xc2132d05d31c914a87c6611c10748aeb04b58e8f",
     "0x8f3cf7ad23cd3cadbd9735aff958023d60d76ee6",
     "0x7ceb23fd6bc0add59e62ac25578270cff1b9f619",
     "0x0d500b1d8e8ef31e21c99d1db9a6444d3adf1270"]
  else []

/-- TokenDiscoveryManager: `attemptKey = token.address.toLowerCase() + "-" + chainId`. -/
def attemptKey (token : Token) (chainId : Nat) : String :=
  strLower token.address ++ "-" ++ toString chainId

/-- One (baseToken, feeTier) probe of discoverPoolsForTokens.  `getAddr`
abstracts `ethersAdapter.getPoolAddress` and `getState` abstracts
`ethersAdapter.getPoolState` (their source is not provided); `none` covers
both a null result and a thrown error, which the source's try/catch
swallows.  On a hit the pool is inserted via addPoolToRegistry with the
probed fee. -/
def probePair (getAddr : Token → String → Nat → Option String)
    (getState : String → Option PoolState) (token : Token)
    (registry : PoolRegistry) (base : String) (fee : Nat) : PoolRegistry × Bool :=
  match getAddr token base fee with
  | none => (registry, false)
  | some addr =>
    match getState addr with
    | none => (registry, false)
    | some ps => (addPoolToRegistry registry addr ps.token0 ps.token1 (some fee), true)

/-- The inner-loop body of the probe loops: run one probe against the
accumulated (registry, foundCount, probeCount). -/
def probeStep (getAddr : Token → String → Nat → Option String)
    (getState : String → Option PoolState) (token : Token) (base : String)
    (acc : PoolRegistry × Nat × Nat) (fee : Nat) : PoolRegistry × Nat × Nat :=
  let step := probePair getAddr getState token acc.1 base fee
  (step.1, (if step.2 then acc.2.1 + 1 else acc.2.1), acc.2.2 + 1)

/-- The outer-loop body of the probe loops: probe one base token across all
fee tiers. -/
def probeBase (getAddr : Token → String → Nat → Option String)
    (getState : String → Option PoolState) (token : Token)
    (acc : PoolRegistry × Nat × Nat) (base : String) : PoolRegistry × Nat × Nat :=
  FEE_TIERS.foldl (probeStep getAddr getState token base) acc

/-- The probe loops of discoverPoolsForTokens for one token: every base
token of the chain crossed with every fee tier.  Returns the updated
registry, the number of pools found, and the number of probes performed. -/
def runProbes (getAddr : Token → String → Nat → Option String)
    (getState : String → Option PoolState) (token : Token) (chainId : Nat)
    (registry : PoolRegistry) : PoolRegistry × Nat × Nat :=
  (BASE_TOKENS chainId).foldl (probeBase getAddr getState token) (registry, 0, 0)

/-- The evolving state of one discoverPoolsForTokens call: the registry
being updated, the recorded attempts, and the probe / found counters. -/
structure DiscoveryState where
  registry : PoolRegistry
  attempts : List (String × DiscoveryAttempt)
  probes : Nat
  totalFound : Nat
deriving Repr, DecidableEq

/-- Per-token body of discoverPoolsForTokens: skip the token entirely when a
recorded attempt is younger than the retry window (regardless of its
outcome); otherwise run all probes and record the attempt. -/
def discoverToken (getAddr : Token → String → Nat → Option String)
    (getState : String → Option PoolState) (chainId : Nat) (now : Int)
    (st : DiscoveryState) (token : Token) : DiscoveryState :=
  let key := attemptKey token chainId
  let skip : Bool :=
    match lookupKey st.attempts key with
    | some a => decide (now - a.attemptedAt < DISCOVERY_RETRY_WINDOW)
    | none => false
  if skip then st
  else
    let probed := runProbes getAddr getState token chainId st.registry
    let attempt : DiscoveryAttempt :=
      { tokenAddress := token.address, chainId := chainId, attemptedAt := now,
        poolsFound := probed.2.1, succeeded := decide (0 < probed.2.1) }
    { registry := probed.1
      attempts := setKey st.attempts key attempt
      probes := st.probes + probed.2.2
      totalFound := st.totalFound + probed.2.1 }

/-- TokenDiscoveryManager.discoverPoolsForTokens: fold the per-token body
over the requested tokens, starting from the registry loaded from storage;
the final state's registry is what `savePoolRegistry` persists. -/
def discoverPoolsForTokens (getAddr : Token → String → Nat → Option String)
    (getState : String → Option PoolState) (tokens : List Token) (chainId : Nat)
    (now : Int) (attempts : List (String × DiscoveryAttempt))
    (registry : PoolRegistry) : DiscoveryState :=
  tokens.foldl (discoverToken getAddr getState chainId now)
    { registry := registry, attempts := attempts, probes := 0, totalFound := 0 }

/-- The registry closure invariant (spec §3 / §8): every pricing route's
pool address is a key of the pools map. -/
def routeClosureOk (reg : PoolRegistry) : Bool :=
  reg.pricingRoutes.all (fun e => e.2.all (fun r => (lookupKey reg.pools r.pool).isSome))

/-- The shape every pool inserted by discovery must have: a v3 pool of
weight 2 whose fee tier is one of the four probed tiers. -/
def discoveredPoolOk (m : PoolMetadata) : Bool :=
  m.dexType == "v3" && m.weight == 2 &&
    (match m.feeTier with
     | some f => FEE_TIERS.contains f
     | none => false)

/-- Registry evolution under discovery: any pool binding in the later
registry was either already present or satisfies `discoveredPoolOk`. -/
def PoolsExtend (reg₀ reg₁ : PoolRegistry) : Prop :=
  ∀ addr m, lookupKey reg₁.pools addr = some m →
    lookupKey reg₀.pools addr = some m ∨ discoveredPoolOk m = true

/-- The refresh tiers of an alive pool. -/
inductive Tier
  | high
  | normal
  | low
deriving Repr, DecidableEq

/-- Modelled from the spec: the tier refresh intervals of §3 and §4.3
(high → 5 s, normal → 10 s, low → 30 s), in milliseconds; the PoolController
source holding `tierInterval` is not provided. -/
def tierInterval : Tier → Int
  | .high => 5000
  | .normal => 10000
  | .low => 30000

/-- An alive pool tracked by the PoolController (spec §3 `AlivePool`,
matching the inline type of PoolScheduler.executeForChain). -/
structure AlivePool where
  address : String
  chainId : Nat
  tier : Tier
  nextRefresh : Int
  lastBlockSeen : Nat
  lastPrice : ℚ
  requestCount : Nat
  lastRequestTime : Int
deriving Repr, DecidableEq

/-- The decoded per-pool payload of a multicall result. -/
structure PoolData where
  sqrtPriceX96 : Nat
  liquidity : Nat
deriving Repr, DecidableEq

/-- One multicall result as consumed by the scheduler
(`{poolAddress, success, data?, blockNumber}`). -/
structure MulticallResult where
  poolAddress : String
  success : Bool
  data : Option PoolData
  blockNumber : Nat
deriving Repr, DecidableEq

/-- One step of tier demotion ("demote one step toward low"). -/
def demoteTier : Tier → Tier
  | .high => .normal
  | _ => .low

/-- Modelled from the spec: `PoolController.updatePoolTier` of §4.3 (the
PoolController source is not provided).  Δ = |new − last| / max(last, ε)
with ε an unspecified small positive constant, taken as 10⁻⁹ here;
Δ ≥ 0.005 promotes to high, 0.001 ≤ Δ < 0.005 sets normal, Δ < 0.001
demotes one step; then `nextRefresh = now + tierInterval(new tier)`. -/
def updatePoolTier (now : Int) (p : AlivePool) (newPrice : ℚ) : AlivePool :=
  let delta := |newPrice - p.lastPrice| / max p.lastPrice (1 / 1000000000)
  let tier' :=
    if 5 / 1000 ≤ delta then Tier.high
    else if 1 / 1000 ≤ delta then Tier.normal
    else demoteTier p.tier
  { p with tier := tier', nextRefresh := now + tierInterval tier' }

/-- The outcome of processing one multicall result in
PoolScheduler.executeForChain: the updated pool, whether a pricing
computation was performed, and whether the block-aware skip fired. -/
structure ProcessOutcome where
  pool : AlivePool
  pricingComputed : Bool
  blockSkipped : Bool
deriving Repr, DecidableEq

/-- The result-processing loop body of PoolScheduler.executeForChain for the
pool owning the result.  On `success && data`: if the block number equals
the pool's `lastBlockSeen` and is nonzero, nothing is touched (block-aware
skip); otherwise the price is recomputed (`Math.sqrt(sqrtPriceX96 / 2^96)`,
abstracted by `sqrtFn` since it is a floating-point operation), the tier is
updated, and `lastBlockSeen` / `lastPrice` are set.  A failed result only
logs a warning. -/
def processMulticallResult (sqrtFn : ℚ → ℚ) (now : Int)
    (p : AlivePool) (r : MulticallResult) : ProcessOutcome :=
  if r.success then
    match r.data with
    | some d =>
      if r.blockNumber = p.lastBlockSeen ∧ r.blockNumber ≠ 0 then
        ⟨p, false, true⟩
      else
        let price := sqrtFn ((d.sqrtPriceX96 : ℚ) / 2 ^ 96)
        let p1 := updatePoolTier now p price
        ⟨{ p1 with lastBlockSeen := r.blockNumber, lastPrice := price }, true, false⟩
    | none => ⟨p, false, false⟩
  else ⟨p, false, false⟩

/-- The catch branch of PoolScheduler.executeForChain: when batch execution
throws, every due pool is rescheduled to `now + 5000` ms. -/
def scheduleRetryAll (now : Int) (pools : List AlivePool) : List AlivePool :=
  pools.map (fun p => { p with nextRefresh := now + 5000 })

/-! Concrete fixtures used by counterexamples and witnesses. -/

/-- A pool in tier `normal`, due since t = 100 ms, last seen at block 5. -/
def skipPoolCx : AlivePool :=
  { address := "0xp1", chainId := 1, tier := .normal, nextRefresh := 100,
    lastBlockSeen := 5, lastPrice := 3, requestCount := 0, lastRequestTime := 0 }

/-- A successful multicall result for `skipPoolCx` at the unchanged block 5. -/
def skipResCx : MulticallResult :=
  { poolAddress := "0xp1", success := true, data := some ⟨1, 1⟩, blockNumber := 5 }

/-- A pool in tier `normal`, due since t = 100 ms. -/
def failPoolCx : AlivePool :=
  { address := "0xp2", chainId := 1, tier := .normal, nextRefresh := 100,
    lastBlockSeen := 5, lastPrice := 3, requestCount := 0, lastRequestTime := 0 }

/-- A failed multicall result for `failPoolCx`. -/
def failResCx : MulticallResult :=
  { poolAddress := "0xp2", success := false, data := none, blockNumber := 0 }

/-- A token metadata fixture. -/
def wethMetaCx : TokenMetadata :=
  { address := "0xWETH", symbol := "WETH", name := "Wrapped Ether",
    decimals := 18, logoURI := none }

/-- A trivial spot-price function, standing in for computeSpotPrice. -/
def zeroSpot : Pool → String → String → ℚ := fun _ _ _ => 0

/-- A trivial liquidity function, standing in for computeLiquidityUSD. -/
def zeroLiq : Pool → ℚ → ℚ → ℚ := fun _ _ _ => 0

/-- An empty entry cache. -/
def emptyCache : String → Option CacheEntry := fun _ => none

/-- The empty pool registry. -/
def emptyRegistry : PoolRegistry := { pools := [], pricingRoutes := [] }

/-- A discovery token fixture on chain 1. -/
def discTokCx : Token :=
  { address := "0xAbC", symbol := "T", name := "T", decimals := 18, chainId := 1 }

/-- A discovery attempt for `discTokCx` recorded at t = 1000 ms. -/
def discAttemptCx : DiscoveryAttempt :=
  { tokenAddress := "0xAbC", chainId := 1, attemptedAt := 1000,
    poolsFound := 0, succeeded := false }

/-- An attempts map holding only `discAttemptCx`. -/
def discAttemptsCx : List (String × DiscoveryAttempt) :=
  [(attemptKey discTokCx 1, discAttemptCx)]

/-- A pool-address oracle that never finds a pool. -/
def noAddr : Token → String → Nat → Option String := fun _ _ _ => none

/-- A pool-state oracle that always fails. -/
def noState : String → Option PoolState := fun _ => none

/-- A pool-address oracle that always yields the same pool address. -/
def someAddr : Token → String → Nat → Option String := fun _ _ _ => some "0xpool"

/-- A pool-state oracle that always yields the same two tokens. -/
def someState : String → Option PoolState := fun _ => some ⟨"0xT0", "0xT1"⟩

/-- The metadata that repeated probing through `someAddr` / `someState`
leaves in the registry (last probed fee tier 10000). -/
def discoveredMetaW : PoolMetadata :=
  { address := "0xpool", dexType := "v3", token0 := "0xT0", token1 := "0xT1",
    feeTier := some 10000, weight := 2 }

/-- The priced token of the pool-selection scenario. -/
def selTokT : PoolToken := { symbol := "T", name := "T", address := "0xt", decimals := 18 }

/-- The base leg of the pool-selection scenario. -/
def selTokB : PoolToken := { symbol := "B", name := "B", address := "0xbase", decimals := 18 }

/-- Pool "0xaa": pairs T with the base token. -/
def poolACx : Pool :=
  { address := "0xaa", token0 := selTokT, token1 := selTokB,
    reserve0 := 0, reserve1 := 0, feeTier := 500 }

/-- Pool "0xbb": also pairs T with the base token. -/
def poolBCx : Pool :=
  { address := "0xbb", token0 := selTokT, token1 := selTokB,
    reserve0 := 0, reserve1 := 0, feeTier := 3000 }

/-- A registry in which T routes to both pools, "0xaa" carrying the higher
weight 2 and "0xbb" weight 1, with "0xbb" listed first. -/
def selRegCx : PoolRegistry :=
  { pools :=
      [("0xaa", { address := "0xaa", dexType := "v3", token0 := "0xt",
                  token1 := "0xbase", feeTier := some 500, weight := 2 }),
       ("0xbb", { address := "0xbb", dexType := "v3", token0 := "0xt",
                  token1 := "0xbase", feeTier := some 3000, weight := 1 })]
    pricingRoutes :=
      [("0xt", [{ pool := "0xbb", base := "0xbase" },
                { pool := "0xaa", base := "0xbase" }])] }

/-- Token metadata for T. -/
def tMetaCx : TokenMetadata :=
  { address := "0xt", symbol := "T", name := "T", decimals := 18, logoURI := none }

/-- A spot-price function that distinguishes which pool it was given. -/
def markSpot : Pool → String → String → ℚ :=
  fun p _ _ => if p.address = "0xaa" then 42 else 7

/-- Two dynamic-list tokens sharing a lowercase address. -/
def dupTokA : TokenMetadata :=
  { address := "0xDUP", symbol := "A", name := "A", decimals := 18, logoURI := none }

/-- Second token with the same lowercase address as `dupTokA`. -/
def dupTokB : TokenMetadata :=
  { address := "0xdup", symbol := "B", name := "B", decimals := 18, logoURI := none }

/-! Theorems. -/

/-- Helper: with a stale or missing cache entry, the per-token snapshot body
computes a fresh entry. -/
theorem computeEntry_stale (spot : Pool → String → String → ℚ)
    (liq : Pool → ℚ → ℚ → ℚ) (cache : String → Option CacheEntry) (now : Int)
    (chainKey stable : String) (pools : List Pool) (meta : TokenMetadata)
    (hcache : isCacheFresh cache (chainKey ++ ":" ++ strLower meta.address) now = false) :
    computeEntry spot liq cache now chainKey stable pools meta =
      freshEntry spot liq stable pools meta := by
  simp only [computeEntry]
  split
  · next c hc =>
    have h : ¬(now - c.timestamp < 10000) := by
      have hh := hcache
      unfold isCacheFresh at hh
      rw [hc] at hh
      exact of_decide_eq_false hh
    rw [if_neg h]
  · rfl

/-- Claim C2, counterexample: on a successful result at an unchanged nonzero
block, the scheduler leaves `nextRefresh` where it was (here 100) instead of
setting it to `now + tierInterval(tier)` (here 1000 + 10000). -/
theorem scheduler_block_skip_counterexample :
    (processMulticallResult id 1000 skipPoolCx skipResCx).pool.nextRefresh = 100 ∧
    (100 : Int) ≠ 1000 + tierInterval skipPoolCx.tier := by decide

/-- Claim C2 (amended): for every successful multicall result with payload
whose block number equals the pool's `lastBlockSeen` and is nonzero, the
scheduler leaves the pool entirely unchanged — `lastPrice`, `tier` and also
`nextRefresh` — and performs no pricing computation. -/
theorem scheduler_block_skip_frame (sqrtFn : ℚ → ℚ) (now : Int) (p : AlivePool)
    (r : MulticallResult) (hs : r.success = true) (hd : r.data.isSome = true)
    (hb : r.blockNumber = p.lastBlockSeen) (hnz : r.blockNumber ≠ 0) :
    processMulticallResult sqrtFn now p r = ⟨p, false, true⟩ := by
  obtain ⟨d, hd'⟩ := Option.isSome_iff_exists.mp hd
  simp only [processMulticallResult, hs, hd', if_true]
  rw [if_pos ⟨hb, hnz⟩]

/-- Witness for the amended Claim C2 at a concrete pool and result. -/
theorem scheduler_block_skip_frame_witness :
    skipResCx.success = true ∧ skipResCx.data.isSome = true ∧
    skipResCx.blockNumber = skipPoolCx.lastBlockSeen ∧ skipResCx.blockNumber ≠ 0 ∧
    processMulticallResult id 1000 skipPoolCx skipResCx = ⟨skipPoolCx, false, true⟩ :=
  ⟨rfl, rfl, rfl, by decide,
    scheduler_block_skip_frame id 1000 skipPoolCx skipResCx rfl rfl rfl (by decide)⟩

/-- Claim C3, counterexample: a failed multicall result leaves the owning
pool's `nextRefresh` unchanged (here 100) instead of setting it to
`now + 5000` (here 6000). -/
theorem scheduler_failed_result_counterexample :
    (processMulticallResult id 1000 failPoolCx failResCx).pool.nextRefresh = 100 ∧
    (100 : Int) ≠ 1000 + 5000 := by decide

/-- Claim C3 (amended): a multicall result with `success = false` leaves the
owning pool entirely unchanged (only a warning is logged); the 5 s fast
retry applies only in the catch branch, where a thrown batch execution sets
`nextRefresh = now + 5000` on every due pool while leaving tiers unchanged.
The embedded tick functions are total, so no exception propagates. -/
theorem scheduler_failed_result_frame (sqrtFn : ℚ → ℚ) (now : Int) (p : AlivePool)
    (r : MulticallResult) (pools : List AlivePool) (hf : r.success = false) :
    processMulticallResult sqrtFn now p r = ⟨p, false, false⟩ ∧
    (scheduleRetryAll now pools).map (fun q => q.nextRefresh) =
      pools.map (fun _ => now + 5000) ∧
    (scheduleRetryAll now pools).map (fun q => q.tier) = pools.map (fun q => q.tier) := by
  refine ⟨?_, ?_, ?_⟩
  · simp [processMulticallResult, hf]
  · simp only [scheduleRetryAll, List.map_map]
    rfl
  · simp only [scheduleRetryAll, List.map_map]
    rfl

/-- Witness for the amended Claim C3 at a concrete pool and result. -/
theorem scheduler_failed_result_frame_witness :
    failResCx.success = false ∧
    (processMulticallResult id 1000 failPoolCx failResCx = ⟨failPoolCx, false, false⟩ ∧
     (scheduleRetryAll 1000 [failPoolCx]).map (fun q => q.nextRefresh) =
       [failPoolCx].map (fun _ => (1000 : Int) + 5000) ∧
     (scheduleRetryAll 1000 [failPoolCx]).map (fun q => q.tier) =
       [failPoolCx].map (fun q => q.tier)) :=
  ⟨rfl, scheduler_failed_result_frame id 1000 failPoolCx failResCx [failPoolCx] rfl⟩

/-- Claim C4: on a cache miss (or stale entry), a windowed token for which no
pool is found gets the synthetic entry with `priceUSD = 1` and
`liquidityUSD = 500000`. -/
theorem snapshot_synthetic_fallback (spot : Pool → String → String → ℚ)
    (liq : Pool → ℚ → ℚ → ℚ) (cache : String → Option CacheEntry) (now : Int)
    (chainKey stable : String) (pools : List Pool) (meta : TokenMetadata)
    (hcache : isCacheFresh cache (chainKey ++ ":" ++ strLower meta.address) now = false)
    (hfind : findPoolForToken pools (strLower meta.address) = none) :
    (computeEntry spot liq cache now chainKey stable pools meta).priceUSD = 1 ∧
    (computeEntry spot liq cache now chainKey stable pools meta).liquidityUSD = 500000 := by
  rw [computeEntry_stale spot liq cache now chainKey stable pools meta hcache]
  simp [freshEntry, hfind, mkSnapshotEntry]

/-- Witness for Claim C4 at a concrete token with an empty cache and no
pools. -/
theorem snapshot_synthetic_fallback_witness :
    isCacheFresh emptyCache ("ethereum" ++ ":" ++ strLower wethMetaCx.address) 0 = false ∧
    findPoolForToken [] (strLower wethMetaCx.address) = none ∧
    ((computeEntry zeroSpot zeroLiq emptyCache 0 "ethereum" "0xstable" [] wethMetaCx).priceUSD = 1 ∧
     (computeEntry zeroSpot zeroLiq emptyCache 0 "ethereum" "0xstable" [] wethMetaCx).liquidityUSD = 500000) :=
  ⟨rfl, rfl,
    snapshot_synthetic_fallback zeroSpot zeroLiq emptyCache 0 "ethereum" "0xstable" []
      wethMetaCx rfl rfl⟩

/-- Claim C5: a token whose recorded discovery attempt is younger than the
5-minute retry window is skipped entirely — zero probes, the recorded
attempt (hence its `attemptedAt`) untouched, and the registry unchanged —
with no condition on whether the earlier attempt succeeded. -/
theorem discovery_retry_window_noop (getAddr : Token → String → Nat → Option String)
    (getState : String → Option PoolState) (T : Token) (chainId : Nat) (now : Int)
    (attempts : List (String × DiscoveryAttempt)) (registry : PoolRegistry)
    (a : DiscoveryAttempt)
    (ha : lookupKey attempts (attemptKey T chainId) = some a)
    (hw : now - a.attemptedAt < DISCOVERY_RETRY_WINDOW) :
    discoverPoolsForTokens getAddr getState [T] chainId now attempts registry =
      { registry := registry, attempts := attempts, probes := 0, totalFound := 0 } := by
  simp [discoverPoolsForTokens, discoverToken, ha, hw]

/-- Witness for Claim C5: a second call 60 s after a failed attempt is a
no-op. -/
theorem discovery_retry_window_noop_witness :
    lookupKey discAttemptsCx (attemptKey discTokCx 1) = some discAttemptCx ∧
    (61000 : Int) - discAttemptCx.attemptedAt < DISCOVERY_RETRY_WINDOW ∧
    discoverPoolsForTokens noAddr noState [discTokCx] 1 61000 discAttemptsCx emptyRegistry =
      { registry := emptyRegistry, attempts := discAttemptsCx, probes := 0, totalFound := 0 } :=
  ⟨by decide, by decide,
    discovery_retry_window_noop noAddr noState discTokCx 1 61000 discAttemptsCx
      emptyRegistry discAttemptCx (by decide) (by decide)⟩

/-- Claim C7, counterexample: a request with `limit=500` yields an effective
limit of 500 — the route enforces no 100 cap. -/
theorem limit_param_uncapped_counterexample :
    parseLimitParam (some "500") = 500 ∧ ¬(parseLimitParam (some "500") ≤ 100) := by
  decide

/-- Claim C7 (amended): a missing `offset` defaults to 0 and a missing
`limit` defaults to 25, but any nonzero parsed value is used as the
effective limit unchanged — there is no maximum. -/
theorem query_param_defaults (s : String) (n : Int)
    (hp : jsParseIntStr s = some n) (hnz : n ≠ 0) :
    parseOffsetParam none = 0 ∧ parseLimitParam none = 25 ∧
    parseLimitParam (some s) = n ∧ parseOffsetParam (some s) = n := by
  refine ⟨rfl, rfl, ?_, ?_⟩
  · simp [parseLimitParam, hp, hnz]
  · simp [parseOffsetParam, hp, hnz]

/-- Witness for the amended Claim C7 at the concrete query string "500". -/
theorem query_param_defaults_witness :
    jsParseIntStr "500" = some 500 ∧ (500 : Int) ≠ 0 ∧
    (parseOffsetParam none = 0 ∧ parseLimitParam none = 25 ∧
     parseLimitParam (some "500") = 500 ∧ parseOffsetParam (some "500") = 500) :=
  ⟨by decide, by decide, query_param_defaults "500" 500 (by decide) (by decide)⟩

/-- Claim C1, counterexample: the spec-side selection rule picks the
weight-2 pool "0xaa" for token T, but the snapshot service's find returns
the first matching pool of the adapter list, "0xbb", and prices from it
(the marker spot function yields 7 for "0xbb" and 42 for "0xaa"). -/
theorem snapshot_pool_selection_counterexample :
    specSelectRoute selRegCx "0xt" = some "0xaa" ∧
    findPoolForToken [poolBCx, poolACx] (strLower tMetaCx.address) = some poolBCx ∧
    poolBCx.address ≠ "0xaa" ∧
    (computeEntry markSpot zeroLiq emptyCache 0 "ethereum" "0xbase"
      [poolBCx, poolACx] tMetaCx).priceUSD = 7 := by
  refine ⟨by decide, by decide, by decide, by decide⟩

/-- Claim C1 (amended): on a cache miss the snapshot service prices a
windowed token from the first pool of the adapter's `getTopPools` list
either of whose legs matches the token's lowercase address — the registry's
pricing routes and pool weights are never consulted — taking the non-stable
leg as the target of computeSpotPrice and feeding the same pool to
computeLiquidityUSD. -/
theorem snapshot_pool_selection (spot : Pool → String → String → ℚ)
    (liq : Pool → ℚ → ℚ → ℚ) (cache : String → Option CacheEntry) (now : Int)
    (chainKey stable : String) (pools : List Pool) (meta : TokenMetadata)
    (pool : Pool)
    (hcache : isCacheFresh cache (chainKey ++ ":" ++ strLower meta.address) now = false)
    (hfind : findPoolForToken pools (strLower meta.address) = some pool) :
    (computeEntry spot liq cache now chainKey stable pools meta).priceUSD =
      entryPriceOf spot pool stable ∧
    (computeEntry spot liq cache now chainKey stable pools meta).liquidityUSD =
      entryLiquidityOf spot liq pool stable := by
  rw [computeEntry_stale spot liq cache now chainKey stable pools meta hcache]
  simp [freshEntry, hfind, mkSnapshotEntry]

/-- Witness for the amended Claim C1 at the concrete selection scenario. -/
theorem snapshot_pool_selection_witness :
    isCacheFresh emptyCache ("ethereum" ++ ":" ++ strLower tMetaCx.address) 0 = false ∧
    findPoolForToken [poolBCx, poolACx] (strLower tMetaCx.address) = some poolBCx ∧
    ((computeEntry markSpot zeroLiq emptyCache 0 "ethereum" "0xbase"
        [poolBCx, poolACx] tMetaCx).priceUSD = entryPriceOf markSpot poolBCx "0xbase" ∧
     (computeEntry markSpot zeroLiq emptyCache 0 "ethereum" "0xbase"
        [poolBCx, poolACx] tMetaCx).liquidityUSD =
       entryLiquidityOf markSpot zeroLiq poolBCx "0xbase") :=
  ⟨rfl, by decide,
    snapshot_pool_selection markSpot zeroLiq emptyCache 0 "ethereum" "0xbase"
      [poolBCx, poolACx] tMetaCx poolBCx rfl (by decide)⟩

/-- Helper: a window whose start is at or past the end of the list is empty. -/
theorem jsSlice_of_le_start {α : Type} (l : List α) (start stop : Int)
    (h : (l.length : Int) ≤ start) : jsSlice l start stop = [] := by
  have hs : ¬ start < 0 := by omega
  have hmin : min start (l.length : Int) = (l.length : Int) := min_eq_right h
  simp only [jsSlice, hs, if_false, hmin]
  rw [Int.toNat_natCast, List.drop_length, List.take_nil]

/-- Helper: an empty window (`stop = start`) yields the empty list. -/
theorem jsSlice_same {α : Type} (l : List α) (start : Int) :
    jsSlice l start start = [] := by
  simp only [jsSlice, sub_self]
  rfl

/-- Claim C8, counterexample: a request with `?limit=0` does not return
`entries = []` — the JS `|| 25` coercion discards the zero, so the default
limit 25 applies and the single configured token is returned. -/
theorem snapshot_limit_zero_counterexample :
    (handleSnapshotRequest zeroSpot zeroLiq emptyCache 0 ["ethereum"] "ethereum"
      none (some "0") "0xstable" [wethMetaCx] [] []).1 = 200 ∧
    (handleSnapshotRequest zeroSpot zeroLiq emptyCache 0 ["ethereum"] "ethereum"
      none (some "0") "0xstable" [wethMetaCx] [] []).2 ≠ [] := by
  refine ⟨by decide, by decide⟩

/-- Claim C8 (amended): an offset at or past the merged-list length yields
`entries = []` with status 200; and calling generateSnapshot directly with
numeric limit 0 yields `entries = []`.  A request carrying the query
parameter `limit=0`, however, falls back to the default limit 25. -/
theorem snapshot_empty_window (spot : Pool → String → String → ℚ)
    (liq : Pool → ℚ → ℚ → ℚ) (cache : String → Option CacheEntry) (now : Int)
    (adapters : List String) (chain : String)
    (offsetParam limitParam : Option String) (stable : String)
    (staticMeta dynamicMeta : List TokenMetadata) (pools : List Pool)
    (offset : Int)
    (hchain : adapters.contains (strLower chain) = true)
    (hoff : ((mergedTokens staticMeta dynamicMeta).length : Int) ≤
      parseOffsetParam offsetParam) :
    handleSnapshotRequest spot liq cache now adapters chain offsetParam limitParam
      stable staticMeta dynamicMeta pools = (200, []) ∧
    generateSnapshot spot liq cache now (strLower chain) stable staticMeta
      dynamicMeta pools offset 0 = [] := by
  constructor
  · simp only [handleSnapshotRequest, hchain, if_true, generateSnapshot,
      jsSlice_of_le_start _ _ _ hoff, List.map_nil]
  · simp only [generateSnapshot, add_zero, jsSlice_same, List.map_nil]

/-- Witness for the amended Claim C8: offset 5 past a one-token list. -/
theorem snapshot_empty_window_witness :
    (["ethereum"] : List String).contains (strLower "ethereum") = true ∧
    ((mergedTokens [wethMetaCx] []).length : Int) ≤ parseOffsetParam (some "5") ∧
    (handleSnapshotRequest zeroSpot zeroLiq emptyCache 0 ["ethereum"] "ethereum"
       (some "5") none "0xstable" [wethMetaCx] [] [] = (200, []) ∧
     generateSnapshot zeroSpot zeroLiq emptyCache 0 (strLower "ethereum") "0xstable"
       [wethMetaCx] [] [] 3 0 = []) :=
  ⟨by decide, by decide,
    snapshot_empty_window zeroSpot zeroLiq emptyCache 0 ["ethereum"] "ethereum"
      (some "5") none "0xstable" [wethMetaCx] [] [] 3 (by decide) (by decide)⟩

/-- Claim C9, counterexample: two dynamic-list tokens with the same
lowercase address both survive the merge when the address is absent from
the static list, so the merged list is not deduplicated by lowercase
address. -/
theorem merged_tokens_counterexample :
    mergedTokens [] [dupTokA, dupTokB] = [dupTokA, dupTokB] ∧
    strLower dupTokA.address = strLower dupTokB.address ∧
    dupTokA ≠ dupTokB := by
  refine ⟨by decide, by decide, by decide⟩

/-- Claim C9 (amended): the merged list is the static list followed by the
dynamic entries whose lowercase address is not among the static lowercase
addresses; duplicates inside either input list are preserved, so the merged
list is duplicate-free only when each input list is duplicate-free by
lowercase address. -/
theorem merged_tokens_nodup (s d : List TokenMetadata)
    (hs : (s.map (fun t => strLower t.address)).Nodup)
    (hd : (d.map (fun t => strLower t.address)).Nodup) :
    mergedTokens s d =
      s ++ d.filter
        (fun t => !((s.map (fun u => strLower u.address)).contains (strLower t.address))) ∧
    ((mergedTokens s d).map (fun t => strLower t.address)).Nodup := by
  refine ⟨rfl, ?_⟩
  unfold mergedTokens
  rw [List.map_append, List.nodup_append]
  refine ⟨hs, hd.sublist (List.Sublist.map _ (List.filter_sublist d)), ?_⟩
  intro a ha hb
  rw [List.mem_map] at hb
  obtain ⟨t, ht, rfl⟩ := hb
  rw [List.mem_filter] at ht
  have h2 := ht.2
  rw [Bool.not_eq_true'] at h2
  have h3 : strLower t.address ∉ s.map (fun u => strLower u.address) := by
    simpa using h2
  exact h3 ha

/-- Witness for the amended Claim C9 with duplicate-free inputs. -/
theorem merged_tokens_nodup_witness :
    ([dupTokA].map (fun t => strLower t.address)).Nodup ∧
    ([wethMetaCx].map (fun t => strLower t.address)).Nodup ∧
    (mergedTokens [dupTokA] [wethMetaCx] =
      [dupTokA] ++ [wethMetaCx].filter
        (fun t => !(([dupTokA].map (fun u => strLower u.address)).contains (strLower t.address))) ∧
     ((mergedTokens [dupTokA] [wethMetaCx]).map (fun t => strLower t.address)).Nodup) :=
  ⟨by decide, by decide, merged_tokens_nodup [dupTokA] [wethMetaCx] (by decide) (by decide)⟩

/-- Helper: writing key `k` makes it readable. -/
theorem lookupKey_setKey_self {β : Type} (ps : List (String × β)) (k : String) (v : β) :
    lookupKey (setKey ps k v) k = some v := by
  induction ps with
  | nil => simp [setKey, lookupKey]
  | cons hd tl ih =>
    obtain ⟨a, w⟩ := hd
    by_cases h : a = k
    · simp [setKey, h, lookupKey]
    · simp [setKey, h, lookupKey, ih]

/-- Helper: writing key `k` leaves other keys unchanged. -/
theorem lookupKey_setKey_ne {β : Type} (ps : List (String × β)) (k : String) (v : β)
    (k' : String) (h : k' ≠ k) :
    lookupKey (setKey ps k v) k' = lookupKey ps k' := by
  induction ps with
  | nil => simp [setKey, lookupKey, Ne.symm h]
  | cons hd tl ih =>
    obtain ⟨a, w⟩ := hd
    by_cases ha : a = k
    · subst ha
      simp [setKey, lookupKey, Ne.symm h]
    · by_cases hk : a = k'
      · simp [setKey, ha, lookupKey, hk, h]
      · simp [setKey, ha, lookupKey, hk, ih]

/-- Helper: writing any key preserves the presence of every key. -/
theorem lookupKey_setKey_isSome {β : Type} (ps : List (String × β)) (k : String)
    (v : β) (k' : String) (h : (lookupKey ps k').isSome = true) :
    (lookupKey (setKey ps k v) k').isSome = true := by
  by_cases hk : k' = k
  · subst hk
    rw [lookupKey_setKey_self]
    rfl
  · rw [lookupKey_setKey_ne ps k v k' hk]
    exact h

/-- Helper: after pushing route `r` under key `k`, every stored route either
was already stored or is `r`. -/
theorem pushRoute_mem (rs : List (String × List PricingRoute)) (k : String)
    (r : PricingRoute) :
    ∀ e ∈ pushRoute rs k r, ∀ x ∈ e.2, (∃ e₀ ∈ rs, x ∈ e₀.2) ∨ x = r := by
  induction rs with
  | nil =>
    intro e he x hx
    simp only [pushRoute, List.mem_singleton] at he
    subst he
    simp only [List.mem_singleton] at hx
    right
    exact hx
  | cons hd tl ih =>
    intro e he x hx
    obtain ⟨a, l⟩ := hd
    by_cases ha : a = k
    · rw [pushRoute, if_pos ha] at he
      rcases List.mem_cons.mp he with he1 | he2
      · subst he1
        rcases List.mem_append.mp hx with hx1 | hx2
        · exact Or.inl ⟨(a, l), List.mem_cons_self _ _, hx1⟩
        · right
          simpa using hx2
      · exact Or.inl ⟨e, List.mem_cons_of_mem _ he2, hx⟩
    · rw [pushRoute, if_neg ha] at he
      rcases List.mem_cons.mp he with he1 | he2
      · subst he1
        exact Or.inl ⟨(a, l), List.mem_cons_self _ _, hx⟩
      · rcases ih e he2 x hx with ⟨e₀, he₀, hx₀⟩ | hr
        · exact Or.inl ⟨e₀, List.mem_cons_of_mem _ he₀, hx₀⟩
        · exact Or.inr hr

/-- Helper: after pushing route `r` under key `k`, key `k` holds `r`. -/
theorem lookupKey_pushRoute_self (rs : List (String × List PricingRoute))
    (k : String) (r : PricingRoute) :
    ∃ l, lookupKey (pushRoute rs k r) k = some l ∧ r ∈ l := by
  induction rs with
  | nil => exact ⟨[r], by simp [pushRoute, lookupKey], by simp⟩
  | cons hd tl ih =>
    obtain ⟨a, la⟩ := hd
    by_cases ha : a = k
    · exact ⟨la ++ [r], by simp [pushRoute, ha, lookupKey], by simp⟩
    · obtain ⟨l, h1, h2⟩ := ih
      exact ⟨l, by simp [pushRoute, ha, lookupKey, h1], h2⟩

/-- Helper: pushing a route never removes a stored route from any key. -/
theorem lookupKey_pushRoute_mono (rs : List (String × List PricingRoute))
    (k' : String) (r' : PricingRoute) (k : String) (l : List PricingRoute)
    (x : PricingRoute) (h : lookupKey rs k = some l) (hx : x ∈ l) :
    ∃ l', lookupKey (pushRoute rs k' r') k = some l' ∧ x ∈ l' := by
  induction rs with
  | nil => simp [lookupKey] at h
  | cons hd tl ih =>
    obtain ⟨a, la⟩ := hd
    by_cases hak : a = k'
    · subst hak
      by_cases hk : a = k
      · subst hk
        rw [lookupKey, if_pos rfl] at h
        have hla : la = l := by injection h
        refine ⟨la ++ [r'], ?_, List.mem_append_left _ (hla ▸ hx)⟩
        rw [pushRoute, if_pos rfl, lookupKey, if_pos rfl]
      · rw [lookupKey, if_neg hk] at h
        refine ⟨l, ?_, hx⟩
        rw [pushRoute, if_pos rfl, lookupKey, if_neg hk, h]
    · by_cases hk : a = k
      · subst hk
        rw [lookupKey, if_pos rfl] at h
        have hla : la = l := by injection h
        refine ⟨la, ?_, hla ▸ hx⟩
        rw [pushRoute, if_neg hak, lookupKey, if_pos rfl]
      · rw [lookupKey, if_neg hk] at h
        obtain ⟨l', h1, h2⟩ := ih h
        refine ⟨l', ?_, h2⟩
        rw [pushRoute, if_neg hak, lookupKey, if_neg hk, h1]

/-- Helper: addPoolToRegistry preserves the route-closure invariant. -/
theorem addPool_routeClosure (reg : PoolRegistry) (addr t0 t1 : String)
    (fee : Option Nat) (hinv : routeClosureOk reg = true) :
    routeClosureOk (addPoolToRegistry reg addr t0 t1 fee) = true := by
  unfold routeClosureOk at hinv ⊢
  rw [List.all_eq_true] at hinv ⊢
  intro e he
  rw [List.all_eq_true]
  intro r hr
  simp only [addPoolToRegistry] at he ⊢
  rcases pushRoute_mem _ _ _ e he r hr with ⟨e₁, he₁, hr₁⟩ | hnew
  · rcases pushRoute_mem _ _ _ e₁ he₁ r hr₁ with ⟨e₀, he₀, hr₀⟩ | hnew'
    · have h0 := hinv e₀ he₀
      rw [List.all_eq_true] at h0
      exact lookupKey_setKey_isSome _ _ _ _ (h0 r hr₀)
    · subst hnew'
      rw [lookupKey_setKey_self]
      rfl
  · subst hnew
    rw [lookupKey_setKey_self]
    rfl

/-- Claim C6: after a discovery insertion, every pricing route still points
at a key of the pools map (given it did before), and the two freshly
inserted symmetric routes are present: lowercase(token0) routes to the pool
with base token1, and lowercase(token1) routes to the pool with base
token0. -/
theorem addPool_registry_invariant (reg : PoolRegistry) (addr t0 t1 : String)
    (fee : Option Nat) (hinv : routeClosureOk reg = true) :
    routeClosureOk (addPoolToRegistry reg addr t0 t1 fee) = true ∧
    (∃ l, lookupKey (addPoolToRegistry reg addr t0 t1 fee).pricingRoutes
        (strLower t0) = some l ∧ PricingRoute.mk addr t1 ∈ l) ∧
    (∃ l, lookupKey (addPoolToRegistry reg addr t0 t1 fee).pricingRoutes
        (strLower t1) = some l ∧ PricingRoute.mk addr t0 ∈ l) := by
  refine ⟨addPool_routeClosure reg addr t0 t1 fee hinv, ?_, ?_⟩
  · obtain ⟨l, h1, h2⟩ :=
      lookupKey_pushRoute_self reg.pricingRoutes (strLower t0) ⟨addr, t1⟩
    obtain ⟨l', h1', h2'⟩ :=
      lookupKey_pushRoute_mono _ (strLower t1) ⟨addr, t0⟩ (strLower t0) l _ h1 h2
    exact ⟨l', by simpa [addPoolToRegistry] using h1', h2'⟩
  · obtain ⟨l, h1, h2⟩ :=
      lookupKey_pushRoute_self
        (pushRoute reg.pricingRoutes (strLower t0) ⟨addr, t1⟩) (strLower t1) ⟨addr, t0⟩
    exact ⟨l, by simpa [addPoolToRegistry] using h1, h2⟩

/-- Witness for Claim C6 inserting a pool into the empty registry. -/
theorem addPool_registry_invariant_witness :
    routeClosureOk emptyRegistry = true ∧
    (routeClosureOk (addPoolToRegistry emptyRegistry "0xP" "0xT0" "0xT1" (some 500)) = true ∧
     (∃ l, lookupKey (addPoolToRegistry emptyRegistry "0xP" "0xT0" "0xT1" (some 500)).pricingRoutes
         (strLower "0xT0") = some l ∧ PricingRoute.mk "0xP" "0xT1" ∈ l) ∧
     (∃ l, lookupKey (addPoolToRegistry emptyRegistry "0xP" "0xT0" "0xT1" (some 500)).pricingRoutes
         (strLower "0xT1") = some l ∧ PricingRoute.mk "0xP" "0xT0" ∈ l)) :=
  ⟨rfl, addPool_registry_invariant emptyRegistry "0xP" "0xT0" "0xT1" (some 500) rfl⟩

/-- Helper: registry evolution is reflexive. -/
theorem poolsExtend_refl (reg : PoolRegistry) : PoolsExtend reg reg :=
  fun _ _ h => Or.inl h

/-- Helper: registry evolution is transitive. -/
theorem poolsExtend_trans {a b c : PoolRegistry} (h1 : PoolsExtend a b)
    (h2 : PoolsExtend b c) : PoolsExtend a c := by
  intro addr m hm
  rcases h2 addr m hm with h | h
  · exact h1 addr m h
  · exact Or.inr h

/-- Helper: inserting a pool at a probed fee tier only adds well-shaped v3
metadata. -/
theorem addPool_extend (reg : PoolRegistry) (a t0 t1 : String) (f : Nat)
    (hf : f ∈ FEE_TIERS) :
    PoolsExtend reg (addPoolToRegistry reg a t0 t1 (some f)) := by
  intro addr m hm
  simp only [addPoolToRegistry] at hm
  by_cases h : addr = a
  · subst h
    rw [lookupKey_setKey_self] at hm
    right
    have hm' := (Option.some.injEq _ _).mp hm
    subst hm'
    have hf4 : f = 100 ∨ f = 500 ∨ f = 3000 ∨ f = 10000 := by
      simpa [FEE_TIERS] using hf
    rcases hf4 with rfl | rfl | rfl | rfl <;> rfl
  · rw [lookupKey_setKey_ne _ _ _ _ h] at hm
    exact Or.inl hm

/-- Helper: one probe only adds well-shaped v3 metadata. -/
theorem probePair_extend (getAddr : Token → String → Nat → Option String)
    (getState : String → Option PoolState) (token : Token) (reg : PoolRegistry)
    (base : String) (f : Nat) (hf : f ∈ FEE_TIERS) :
    PoolsExtend reg (probePair getAddr getState token reg base f).1 := by
  rcases h1 : getAddr token base f with _ | addr
  · simp only [probePair, h1]
    exact poolsExtend_refl reg
  · rcases h2 : getState addr with _ | ps
    · simp only [probePair, h1, h2]
      exact poolsExtend_refl reg
    · simp only [probePair, h1, h2]
      exact addPool_extend reg addr ps.token0 ps.token1 f hf

/-- Helper: one inner-loop step only adds well-shaped v3 metadata. -/
theorem probeStep_extend (getAddr : Token → String → Nat → Option String)
    (getState : String → Option PoolState) (token : Token) (base : String)
    (acc : PoolRegistry × Nat × Nat) (f : Nat) (hf : f ∈ FEE_TIERS) :
    PoolsExtend acc.1 (probeStep getAddr getState token base acc f).1 :=
  probePair_extend getAddr getState token acc.1 base f hf

/-- Helper: folding the inner loop over fee tiers drawn from FEE_TIERS only
adds well-shaped v3 metadata. -/
theorem foldFees_extend (getAddr : Token → String → Nat → Option String)
    (getState : String → Option PoolState) (token : Token) (base : String)
    (L : List Nat) (hL : ∀ f ∈ L, f ∈ FEE_TIERS) (acc : PoolRegistry × Nat × Nat) :
    PoolsExtend acc.1 ((L.foldl (probeStep getAddr getState token base) acc)).1 := by
  induction L generalizing acc with
  | nil => exact poolsExtend_refl _
  | cons f fs ih =>
    rw [List.foldl_cons]
    exact poolsExtend_trans
      (probeStep_extend getAddr getState token base acc f (hL f (List.mem_cons_self _ _)))
      (ih (fun g hg => hL g (List.mem_cons_of_mem _ hg)) _)

/-- Helper: probing one base token only adds well-shaped v3 metadata. -/
theorem probeBase_extend (getAddr : Token → String → Nat → Option String)
    (getState : String → Option PoolState) (token : Token)
    (acc : PoolRegistry × Nat × Nat) (base : String) :
    PoolsExtend acc.1 (probeBase getAddr getState token acc base).1 :=
  foldFees_extend getAddr getState token base FEE_TIERS (fun _ hf => hf) acc

/-- Helper: folding over any base-token list only adds well-shaped v3
metadata. -/
theorem foldBases_extend (getAddr : Token → String → Nat → Option String)
    (getState : String → Option PoolState) (token : Token) (bs : List String)
    (acc : PoolRegistry × Nat × Nat) :
    PoolsExtend acc.1 ((bs.foldl (probeBase getAddr getState token) acc)).1 := by
  induction bs generalizing acc with
  | nil => exact poolsExtend_refl _
  | cons b rest ih =>
    rw [List.foldl_cons]
    exact poolsExtend_trans (probeBase_extend getAddr getState token acc b) (ih _)

/-- Helper: the full probe run for one token only adds well-shaped v3
metadata. -/
theorem runProbes_extend (getAddr : Token → String → Nat → Option String)
    (getState : String → Option PoolState) (token : Token) (chainId : Nat)
    (registry : PoolRegistry) :
    PoolsExtend registry (runProbes getAddr getState token chainId registry).1 :=
  foldBases_extend getAddr getState token (BASE_TOKENS chainId) (registry, 0, 0)

/-- Helper: processing one token only adds well-shaped v3 metadata. -/
theorem discoverToken_extend (getAddr : Token → String → Nat → Option String)
    (getState : String → Option PoolState) (chainId : Nat) (now : Int)
    (st : DiscoveryState) (token : Token) :
    PoolsExtend st.registry (discoverToken getAddr getState chainId now st token).registry := by
  simp only [discoverToken]
  split
  · exact poolsExtend_refl _
  · exact runProbes_extend getAddr getState token chainId st.registry

/-- Helper: processing a token list only adds well-shaped v3 metadata. -/
theorem foldTokens_extend (getAddr : Token → String → Nat → Option String)
    (getState : String → Option PoolState) (chainId : Nat) (now : Int)
    (ts : List Token) (st : DiscoveryState) :
    PoolsExtend st.registry
      ((ts.foldl (discoverToken getAddr getState chainId now) st)).registry := by
  induction ts generalizing st with
  | nil => exact poolsExtend_refl _
  | cons t rest ih =>
    rw [List.foldl_cons]
    exact poolsExtend_trans
      (discoverToken_extend getAddr getState chainId now st t) (ih _)

/-- Claim C10: every pool binding present in the registry after a discovery
run was either present before, or is a v3 pool of weight 2 whose fee tier is
one of {100, 500, 3000, 10000} — in particular the v2 branch of
addPoolToRegistry is never taken by discovery. -/
theorem discovery_inserts_v3_pools (getAddr : Token → String → Nat → Option String)
    (getState : String → Option PoolState) (tokens : List Token) (chainId : Nat)
    (now : Int) (attempts : List (String × DiscoveryAttempt))
    (registry : PoolRegistry) (addr : String) (m : PoolMetadata)
    (hm : lookupKey (discoverPoolsForTokens getAddr getState tokens chainId now
      attempts registry).registry.pools addr = some m) :
    lookupKey registry.pools addr = some m ∨ discoveredPoolOk m = true :=
  foldTokens_extend getAddr getState chainId now tokens
    { registry := registry, attempts := attempts, probes := 0, totalFound := 0 }
    addr m hm

/-- Witness for Claim C10: a concrete run that inserts one pool into the
empty registry. -/
theorem discovery_inserts_v3_pools_witness :
    lookupKey (discoverPoolsForTokens someAddr someState [discTokCx] 1 0 []
      emptyRegistry).registry.pools "0xpool" = some discoveredMetaW ∧
    (lookupKey emptyRegistry.pools "0xpool" = some discoveredMetaW ∨
      discoveredPoolOk discoveredMetaW = true) :=
  ⟨by decide,
    discovery_inserts_v3_pools someAddr someState [discTokCx] 1 0 [] emptyRegistry
      "0xpool" discoveredMetaW (by decide)⟩

end DexAgg
